import Mathlib

/-
Verification development for the mjl log repository: a logging package that
prints errors with optional tags (package log, log.go) over the tagged-error
type of package fur (fur.go).

Shallow embedding notes:
- Go interface values used as tag values are modelled by the inductive GoValue;
  the constructor GoValue.unserializable stands for a Go value that
  encoding/json cannot marshal (a channel, a function, ...).
- A Go map[string]interface is modelled as an association list with unique
  keys (Tags).  The list order models the enumeration order that one
  particular range over the map happens to produce; Go leaves that order
  unspecified and may change it between two range loops over the same map.
- A Go error value, as seen by the log package, is modelled by GoErr:
  GoErr.basic is an error without an Unwrap method, GoErr.wrapped is the
  wrapError produced by xerrors.Errorf with a %w verb (its message is the
  leading formatted text followed by the message of the cause), and
  GoErr.tagged is a fur.Error value (field Err plus its tag map).
- time.Now and runtime.Caller are platform services outside the repository;
  they enter the embedding as explicit arguments (GoTime, an optional
  file/line pair).  The io.Writer sink and os.Stderr are modelled by the
  WriteResult record listing what was written where.
-/

/-- GoValue models a Go interface value used as a tag value.  The constructor
unserializable models a value that encoding/json rejects, carrying the text
that the json error message would name. -/
inductive GoValue where
  | str (s : String)
  | int (n : Int)
  | bool (b : Bool)
  | unserializable (ty : String)
  deriving DecidableEq

/-- render models fmt verb %v on a tag value, as used by the text mode of
write via fmt.Fprintf. -/
def GoValue.render : GoValue → String
  | .str s => s
  | .int n => toString n
  | .bool b => if b then "true" else "false"
  | .unserializable ty => ty

/-- serializable is true when encoding/json can marshal the value. -/
def GoValue.serializable : GoValue → Bool
  | .unserializable _ => false
  | _ => true

/-- Tags models the Go type fur.Tags, a map from string keys to interface
values, as an association list with unique keys.  The list order models the
enumeration order of one particular range loop over the map. -/
abbrev Tags := List (String × GoValue)

/-- set models the Go map assignment m[k] = v: replace the entry holding the
key if present, otherwise add a fresh entry. -/
def Tags.set : Tags → String → GoValue → Tags
  | [], k, v => [(k, v)]
  | (k2, v2) :: rest, k, v =>
      if k2 = k then (k, v) :: rest else (k2, v2) :: Tags.set rest k v

/-- get models the Go map read m[k], returning none when the key is absent. -/
def Tags.get : Tags → String → Option GoValue
  | [], _ => none
  | (k2, v2) :: rest, k => if k2 = k then some v2 else Tags.get rest k

/-- GoErr models a Go error value as the log package can observe it: an
error without an Unwrap method, an xerrors wrapError made by a %w verb, or a
fur.Error carrying a tag map in front of an underlying error. -/
inductive GoErr where
  | basic (msg : String)
  | wrapped (pre : String) (cause : GoErr)
  | tagged (tags : Tags) (err : GoErr)
  deriving DecidableEq

/-- message models the Error() method: a wrapError prints the formatted text
followed by the message of its cause, and fur.Error prints the message of
its underlying error (tags never appear). -/
def GoErr.message : GoErr → String
  | .basic m => m
  | .wrapped p c => p ++ c.message
  | .tagged _ e => e.message

/-- unwrap models xerrors.Unwrap: a basic error has no Unwrap method, a
wrapError unwraps to its cause, and fur.Error.Unwrap returns
xerrors.Unwrap of its field Err (fur.go line 30), one step past the stored
underlying error. -/
def GoErr.unwrap : GoErr → Option GoErr
  | .basic _ => none
  | .wrapped _ c => some c
  | .tagged _ e => e.unwrap

/-- chain lists an error followed by every error reached from it by repeated
xerrors.Unwrap steps, in walk order. -/
def GoErr.chain : GoErr → List GoErr
  | .basic m => [.basic m]
  | .wrapped p c => .wrapped p c :: c.chain
  | .tagged ts e => .tagged ts e :: (GoErr.chain e).tail

/-- linkTags gives the tag list a chain link exposes: the type assertion
err.(fur.Tagger) succeeds exactly on fur.Error values, whose Tags method
returns their own tag map; every other link exposes nothing. -/
def linkTags : GoErr → Tags
  | .tagged ts _ => ts
  | _ => []

/-- walkTags is the unwrap loop shared by write and writeJSON (log.go lines
173 and 225) folded over the structure of the top error: starting at the
first unwrap of the top error and continuing while a cause exists, collect
the tag pairs of every link that is a fur.Tagger, tags of outer links before
tags of inner links. -/
def walkTags : GoErr → Tags
  | .basic _ => []
  | .wrapped _ c => linkTags c ++ walkTags c
  | .tagged _ e => walkTags e

namespace fur

/-- Error models the Go struct fur.Error: an underlying error Err and a tag
map. -/
structure Error where
  Err : GoErr
  tags : Tags
  deriving DecidableEq

/-- error models the Error() method of fur.Error: the message of the
underlying error, tags not included. -/
def Error.error (e : Error) : String := e.Err.message

/-- unwrap models the Unwrap method of fur.Error, which returns
xerrors.Unwrap(e.Err). -/
def Error.unwrap (e : Error) : Option GoErr := e.Err.unwrap

/-- tagsOf models the Tags method of fur.Error: the own tag map of this
link only. -/
def Error.tagsOf (e : Error) : Tags := e.tags

/-- tag models the Tag method: set key to value in the tag map of this
value and return the value. -/
def Error.tag (e : Error) (key : String) (value : GoValue) : Error :=
  ⟨e.Err, Tags.set e.tags key value⟩

/-- New models fur.New: wrap an existing error with an empty tag map. -/
def New (err : GoErr) : Error := ⟨err, []⟩

/-- toGoErr places a fur.Error value back into the error universe, where it
is a link that the Tagger type assertion accepts. -/
def Error.toGoErr (e : Error) : GoErr := .tagged e.tags e.Err

end fur

/-- FlagTimestamp is the bit flag for printing a timestamp. -/
def FlagTimestamp : Nat := 1

/-- FlagUTC is the bit flag for printing the timestamp in UTC. -/
def FlagUTC : Nat := 2

/-- FlagFile is the bit flag for printing the file name with line number. -/
def FlagFile : Nat := 4

/-- FlagPath is the bit flag for printing the full path with line number. -/
def FlagPath : Nat := 8

/-- FlagJSON is the bit flag selecting single line JSON output. -/
def FlagJSON : Nat := 16

/-- Logger models the Go struct log.Logger.  The io.Writer field out is a
platform service, modelled by the sink field of WriteResult instead; pfx is
the prefix field. -/
structure Logger where
  pfx : String
  flags : Nat
  deriving DecidableEq

/-- GoTime models one observation of time.Now, carrying its RFC3339Nano
rendering in the local zone and in UTC. -/
structure GoTime where
  rfcLocal : String
  rfcUTC : String
  deriving DecidableEq

/-- pathBase models keeping only the file component of path.Split: the text
after the final slash (the whole string when there is no slash). -/
def pathBase (s : String) : String :=
  String.mk ((s.data.reverse.takeWhile (fun c => c != '/')).reverse)

/-- fileSegment is the caller location text produced by both modes with
fmt format string percent-s colon percent-d colon space: when FlagPath is
not set only the file component of the path is kept, and the segment ends
in a colon and a space. -/
def fileSegment (flags : Nat) (file : String) (line : Nat) : String :=
  (if flags &&& FlagPath = 0 then pathBase file else file)
    ++ ":" ++ toString line ++ ": "

/-- textHead builds the part of the text mode buffer that precedes the
message: optional timestamp plus a space, the configured prefix verbatim,
and the optional caller location segment (silently omitted when
runtime.Caller fails, modelled by caller = none). -/
def Logger.textHead (l : Logger) (now : GoTime) (caller : Option (String × Nat)) : String :=
  (if l.flags &&& FlagTimestamp ≠ 0 then
      (if l.flags &&& FlagUTC ≠ 0 then now.rfcUTC else now.rfcLocal) ++ " "
    else "")
  ++ l.pfx
  ++ (if l.flags &&& (FlagFile ||| FlagPath) ≠ 0 then
        match caller with
        | some (file, line) => fileSegment l.flags file line
        | none => ""
      else "")

/-- emitTags is the tag printing loop of text mode write (log.go lines 172
to 185): a running separator starts as space-open-paren, each pair is
printed as separator key equals value, the separator becomes a single space
after the first pair, and a closing paren is appended exactly when the
separator changed.  The pairs land in the same builder as the rest of the
line, so the segment is returned here as one string to append. -/
def emitTags (pairs : Tags) : String :=
  let r := pairs.foldl
    (fun acc p => (acc.1 ++ acc.2 ++ p.1 ++ "=" ++ p.2.render, " "))
    ("", " (")
  if r.2 ≠ " (" then r.1 ++ ")" else r.1

/-- hasSuffixNL embeds strings.HasSuffix(s, singleNewline).  The suffix is
the one byte newline, and a trailing multibyte character never ends in that
byte, so the test is equivalent to the last character being a newline. -/
def hasSuffixNL (s : String) : Bool := s.data.getLast? == some '\n'

/-- finalizeNL is the trailing newline step of text mode write: append one
newline only when the buffer does not already end with one. -/
def finalizeNL (s : String) : String := if hasSuffixNL s then s else s ++ "\n"

/-- textBuffer is the complete text mode buffer before the newline step:
head, formatted message, tag segment. -/
def Logger.textBuffer (l : Logger) (now : GoTime) (caller : Option (String × Nat)) (top : GoErr) : String :=
  l.textHead now caller ++ top.message ++ emitTags (walkTags top)

/-- writeText is the text branch of Logger.write: build the buffer, ensure
a trailing newline, perform the single write to out, and return the written
string. -/
def Logger.writeText (l : Logger) (now : GoTime) (caller : Option (String × Nat)) (top : GoErr) : String :=
  finalizeNL (l.textBuffer now caller top)

/-- WriteResult models the observable effect of one log call: what was
written to the configured sink (none when nothing was written), what was
written to os.Stderr as diagnostic, and the returned string. -/
structure WriteResult where
  sink : Option String
  stderrDiag : Option String
  ret : String
  deriving DecidableEq

/-- buildJSONDoc is the document built by writeJSON before marshalling
(log.go lines 194 to 233): field message, optional timestamp, optional file
segment (same text as text mode), field level from whether the message
unwraps, then every collected tag pair assigned as a top level field in
walk order, overwriting in place. -/
def Logger.buildJSONDoc (l : Logger) (now : GoTime) (caller : Option (String × Nat)) (top : GoErr) : Tags :=
  let o : Tags := Tags.set [] "message" (.str top.message)
  let o : Tags :=
    if l.flags &&& FlagTimestamp ≠ 0 then
      Tags.set o "timestamp"
        (.str (if l.flags &&& FlagUTC ≠ 0 then now.rfcUTC else now.rfcLocal))
    else o
  let o : Tags :=
    if l.flags &&& (FlagFile ||| FlagPath) ≠ 0 then
      match caller with
      | some (file, line) => Tags.set o "file" (.str (fileSegment l.flags file line))
      | none => o
    else o
  let o : Tags :=
    match top.unwrap with
    | none => Tags.set o "level" (.str "info")
    | some _ => Tags.set o "level" (.str "error")
  (walkTags top).foldl (fun d p => Tags.set d p.1 p.2) o

/-- jsonEscape escapes a string for a JSON document the way encoding/json
does for the characters this development uses. -/
def jsonEscape (s : String) : String :=
  String.join (s.data.map (fun c =>
    if c = '\\' then "\\\\"
    else if c = '"' then "\\\""
    else if c = '\n' then "\\n"
    else String.singleton c))

/-- goQuote wraps a string in JSON quotes. -/
def goQuote (s : String) : String := "\"" ++ jsonEscape s ++ "\""

/-- renderJSONValue renders one serializable value as JSON text. -/
def renderJSONValue : GoValue → String
  | .str s => goQuote s
  | .int n => toString n
  | .bool b => if b then "true" else "false"
  | .unserializable _ => "null"

/-- insertByKey inserts one pair into a list sorted by key. -/
def insertByKey (p : String × GoValue) : Tags → Tags
  | [] => [p]
  | q :: rest => if p.1 ≤ q.1 then p :: q :: rest else q :: insertByKey p rest

/-- sortByKey sorts the document by key, as encoding/json does for a Go
map before printing it. -/
def sortByKey (d : Tags) : Tags := d.foldr insertByKey []

/-- joinComma joins rendered fields with commas. -/
def joinComma : List String → String
  | [] => ""
  | [s] => s
  | s :: rest => s ++ "," ++ joinComma rest

/-- renderJSONDoc prints the document as a single line JSON object with
keys sorted, as encoding/json prints a Go map. -/
def renderJSONDoc (d : Tags) : String :=
  "\x7b" ++ joinComma ((sortByKey d).map
    (fun p => goQuote p.1 ++ ":" ++ renderJSONValue p.2)) ++ "\x7d"

/-- marshal models json.Marshal on the document: it fails exactly when some
value in the document is one that encoding/json rejects, and otherwise
produces the single line JSON text. -/
def marshal (d : Tags) : Option String :=
  if d.all (fun p => p.2.serializable) then some (renderJSONDoc d) else none

/-- marshalErrMsg models the text of the json.Marshal error: the
unsupported type message naming the offending value. -/
def marshalErrMsg (d : Tags) : String :=
  match d.find? (fun p => !p.2.serializable) with
  | some (_, .unserializable ty) => "json: unsupported type: " ++ ty
  | _ => ""

/-- writeJSON is the JSON branch of Logger.write (log.go lines 194 to 243):
build the document, marshal it; on failure print a diagnostic to
os.Stderr and return just the plain message, writing nothing to out; on
success write the JSON line plus a newline to out as a single write and
return the JSON line without the newline. -/
def Logger.writeJSON (l : Logger) (now : GoTime) (caller : Option (String × Nat)) (top : GoErr) : WriteResult :=
  match marshal (l.buildJSONDoc now caller top) with
  | none =>
      ⟨none,
       some ("marshal json for message " ++ goQuote top.message ++ ": "
         ++ marshalErrMsg (l.buildJSONDoc now caller top) ++ "\n"),
       top.message⟩
  | some s => ⟨some (s ++ "\n"), none, s⟩

/-- write models Logger.write: dispatch on FlagJSON, otherwise run the text
mode sequence, in which the built string is both written to out and
returned. -/
def Logger.write (l : Logger) (now : GoTime) (caller : Option (String × Nat)) (top : GoErr) : WriteResult :=
  if l.flags &&& FlagJSON ≠ 0 then l.writeJSON now caller top
  else ⟨some (l.writeText now caller top), none, l.writeText now caller top⟩

/-- lastValueOf gives the value of the last pair holding the key in a tag
emission list, none when no pair holds the key.  In walk order, the last
pair holding a key is the one attached at the deepest (most inner) chain
link that carries the key. -/
def lastValueOf : Tags → String → Option GoValue
  | [], _ => none
  | (k2, v) :: rest, k =>
      match lastValueOf rest k with
      | some w => some w
      | none => if k2 = k then some v else none

/-- carries is true when some pair of the emission list holds the key. -/
def carries (pairs : Tags) (k : String) : Bool := pairs.any (fun p => p.1 == k)

theorem tags_get_set_self (d : Tags) (k : String) (v : GoValue) :
    Tags.get (Tags.set d k v) k = some v := by
  induction d with
  | nil => simp [Tags.set, Tags.get]
  | cons p rest ih =>
      obtain ⟨k2, v2⟩ := p
      by_cases h : k2 = k
      · simp [Tags.set, h, Tags.get]
      · simp [Tags.set, h, Tags.get, ih]

theorem tags_get_set_ne (d : Tags) (k : String) (v : GoValue) (k2 : String)
    (h : k2 ≠ k) : Tags.get (Tags.set d k v) k2 = Tags.get d k2 := by
  induction d with
  | nil => simp [Tags.set, Tags.get, Ne.symm h]
  | cons p rest ih =>
      obtain ⟨k3, v3⟩ := p
      by_cases h3 : k3 = k
      · subst h3
        simp [Tags.set, Tags.get, Ne.symm h]
      · simp [Tags.set, h3, Tags.get, ih]

theorem setAll_get (pairs : Tags) (d : Tags) (k : String) :
    Tags.get (pairs.foldl (fun d2 p => Tags.set d2 p.1 p.2) d) k =
      (lastValueOf pairs k).elim (Tags.get d k) some := by
  induction pairs generalizing d with
  | nil => simp [lastValueOf]
  | cons p rest ih =>
      obtain ⟨k1, v1⟩ := p
      simp only [List.foldl_cons]
      rw [ih]
      cases h : lastValueOf rest k with
      | some w => simp [lastValueOf, h]
      | none =>
          by_cases hk : k1 = k
          · subst hk
            simp [lastValueOf, h, tags_get_set_self]
          · simp [lastValueOf, h, hk, tags_get_set_ne d k1 v1 k (Ne.symm hk)]

theorem carries_eq_isSome (pairs : Tags) (k : String) :
    carries pairs k = (lastValueOf pairs k).isSome := by
  induction pairs with
  | nil => rfl
  | cons p rest ih =>
      obtain ⟨k1, v1⟩ := p
      simp only [carries, List.any_cons] at ih ⊢
      rw [ih]
      cases h : lastValueOf rest k with
      | some w => simp [lastValueOf, h]
      | none =>
          simp only [lastValueOf, h]
          by_cases hk : k1 = k
          · simp [hk]
          · simp [hk]

theorem lastValueOf_append (outer inner : Tags) (k : String)
    (h : carries inner k = true) :
    lastValueOf (outer ++ inner) k = lastValueOf inner k := by
  have hs : (lastValueOf inner k).isSome = true := by
    rw [← carries_eq_isSome]; exact h
  induction outer with
  | nil => rfl
  | cons p rest ih =>
      obtain ⟨k1, v1⟩ := p
      have hstep : lastValueOf (((k1, v1) :: rest) ++ inner) k
          = match lastValueOf (rest ++ inner) k with
            | some w => some w
            | none => if k1 = k then some v1 else none := rfl
      rw [hstep, ih]
      cases hv : lastValueOf inner k with
      | some w => rfl
      | none => rw [hv] at hs; simp at hs

theorem carries_false_lastValueOf (pairs : Tags) (k : String)
    (h : carries pairs k = false) : lastValueOf pairs k = none := by
  have := carries_eq_isSome pairs k
  rw [h] at this
  cases hv : lastValueOf pairs k with
  | none => rfl
  | some w => rw [hv] at this; simp at this

theorem chain_head_tail (e : GoErr) : e.chain = e :: e.chain.tail := by
  cases e <;> rfl

theorem chain_tail_eq (e : GoErr) :
    e.chain.tail = e.unwrap.elim [] GoErr.chain := by
  induction e with
  | basic m => rfl
  | wrapped p c ih => rfl
  | tagged ts e ih =>
      show (GoErr.chain e).tail = (GoErr.unwrap (.tagged ts e)).elim [] GoErr.chain
      rw [GoErr.unwrap]
      exact ih

theorem walkTags_eq_chain (e : GoErr) :
    walkTags e = (e.chain.tail).flatMap linkTags := by
  induction e with
  | basic m => rfl
  | wrapped p c ih =>
      show linkTags c ++ walkTags c = (GoErr.chain c).flatMap linkTags
      rw [chain_head_tail c, List.flatMap_cons, ih]
  | tagged ts e ih =>
      show walkTags e = ((GoErr.chain e).tail).flatMap linkTags
      exact ih

theorem buildJSONDoc_get_carried (l : Logger) (now : GoTime)
    (caller : Option (String × Nat)) (top : GoErr) (k : String)
    (h : carries (walkTags top) k = true) :
    Tags.get (l.buildJSONDoc now caller top) k = lastValueOf (walkTags top) k := by
  have hs : (lastValueOf (walkTags top) k).isSome = true := by
    rw [← carries_eq_isSome]; exact h
  simp only [Logger.buildJSONDoc]
  rw [setAll_get]
  cases hv : lastValueOf (walkTags top) k with
  | some w => rfl
  | none => rw [hv] at hs; simp at hs

/-- tagJoin renders an emission list as key equals value pairs separated by
single spaces, the shape the text mode loop produces between the opening
and closing parens. -/
def tagJoin : Tags → String
  | [] => ""
  | p :: rest =>
      rest.foldl (fun acc q => acc ++ " " ++ q.1 ++ "=" ++ q.2.render)
        (p.1 ++ "=" ++ p.2.render)

theorem emit_fold_snd (pairs : Tags) (a : String) :
    (pairs.foldl (fun acc p => (acc.1 ++ acc.2 ++ p.1 ++ "=" ++ p.2.render, " "))
      (a, " ")).2 = " " := by
  induction pairs generalizing a with
  | nil => rfl
  | cons p rest ih =>
      simp only [List.foldl_cons]
      exact ih _

theorem emit_fold_fst (pairs : Tags) (a : String) :
    (pairs.foldl (fun acc p => (acc.1 ++ acc.2 ++ p.1 ++ "=" ++ p.2.render, " "))
      (a, " ")).1 =
      pairs.foldl (fun acc q => acc ++ " " ++ q.1 ++ "=" ++ q.2.render) a := by
  induction pairs generalizing a with
  | nil => rfl
  | cons p rest ih =>
      simp only [List.foldl_cons]
      exact ih _

theorem fold_join_pull (pairs : Tags) (x y : String) :
    pairs.foldl (fun acc q => acc ++ " " ++ q.1 ++ "=" ++ q.2.render) (x ++ y) =
      x ++ pairs.foldl (fun acc q => acc ++ " " ++ q.1 ++ "=" ++ q.2.render) y := by
  induction pairs generalizing y with
  | nil => rfl
  | cons p rest ih =>
      simp only [List.foldl_cons]
      have h : x ++ y ++ " " ++ p.1 ++ "=" ++ p.2.render
          = x ++ (y ++ " " ++ p.1 ++ "=" ++ p.2.render) := by
        simp [String.append_assoc]
      rw [h]
      exact ih _

theorem emitTags_eq (pairs : Tags) :
    emitTags pairs = if pairs = [] then "" else " (" ++ tagJoin pairs ++ ")" := by
  cases pairs with
  | nil => rfl
  | cons p rest =>
      obtain ⟨k, v⟩ := p
      simp only [emitTags, List.foldl_cons, List.cons_ne_nil, if_neg, reduceIte]
      rw [if_pos]
      · rw [emit_fold_fst]
        have h0 : ("" ++ " (" ++ k ++ "=" ++ GoValue.render v)
            = " (" ++ (k ++ "=" ++ GoValue.render v) := by
          simp [String.append_assoc]
        rw [h0, fold_join_pull]
        rfl
      · rw [emit_fold_snd]
        decide

theorem hasSuffixNL_append_nl (s : String) : hasSuffixNL (s ++ "\n") = true := by
  have hd : (s ++ "\n").data = s.data ++ ['\n'] := String.data_append s "\n"
  simp [hasSuffixNL, hd, List.getLast?_concat]

/-- trailingNLCount counts how many newline characters the string ends
with. -/
def trailingNLCount (s : String) : Nat :=
  (s.data.reverse.takeWhile (fun c => c == '\n')).length

/-- exAddr is the spec section 8 scenario: a root error with message
timeout, wrapped by a formatted connect error tagged with an address, all
wrapped by a formatted open resource message. -/
def exAddr : GoErr :=
  .wrapped "open resource: "
    ((fur.Error.tag (fur.New (.wrapped "connect: " (.basic "timeout")))
        "address" (.str "10.0.0.1:5432")).toGoErr)

/-- exCollide has an outer link and a deeper inner link that both carry the
key id. -/
def exCollide : GoErr :=
  .wrapped "a: " (.tagged [("id", .int 1)]
    (.wrapped "b: " (.tagged [("id", .int 2)] (.basic "x"))))

/-- exBad is a chain whose only tag holds a value that encoding/json
rejects. -/
def exBad : GoErr :=
  .wrapped "m: " (.tagged [("ch", .unserializable "chan int")] (.basic "x"))

/-- exMsgTag carries a tag whose key collides with the built in message
field. -/
def exMsgTag : GoErr :=
  .wrapped "m: " (.tagged [("message", .str "override")] (.basic "x"))

/-- exFileTag carries a tag whose key collides with the built in file
field. -/
def exFileTag : GoErr :=
  .wrapped "m: " (.tagged [("file", .str "X")] (.basic "x"))

/-- C1: in text mode, for every logged message and every chain, the tag
segment is built by walking the chain from the first unwrap step of the
formatted message; at each link exposing a tag mapping each pair is
appended, the first tag overall preceded by space open paren, every later
tag by a single space, the segment closed with a paren exactly when at
least one tag was emitted, and tags of outer links precede tags of inner
links. -/
theorem c1_text_tag_segment (l : Logger) (now : GoTime)
    (caller : Option (String × Nat)) (top : GoErr) :
    l.writeText now caller top
      = finalizeNL (l.textHead now caller ++ top.message ++ emitTags (walkTags top))
    ∧ emitTags (walkTags top)
      = (if walkTags top = [] then "" else " (" ++ tagJoin (walkTags top) ++ ")")
    ∧ walkTags top = (top.chain.tail).flatMap linkTags
    ∧ top.chain.tail = top.unwrap.elim [] GoErr.chain :=
  ⟨rfl, emitTags_eq _, walkTags_eq_chain _, chain_tail_eq _⟩

/-- C2 counterexample: a chain whose inner link carries a tag with key
level makes the emitted document hold that tag value, not the word error,
although the top message has a cause. -/
theorem c2_cex :
    Tags.get (Logger.buildJSONDoc ⟨"", 16⟩ ⟨"TL", "TU"⟩ none
        (.wrapped "m: " (.tagged [("level", .str "banana")] (.basic "x")))) "level"
      ≠ some (.str "error")
    ∧ (GoErr.wrapped "m: " (.tagged [("level", .str "banana")] (.basic "x"))).unwrap ≠ none
    ∧ Tags.get (Logger.buildJSONDoc ⟨"", 16⟩ ⟨"TL", "TU"⟩ none
        (.wrapped "m: " (.tagged [("level", .str "banana")] (.basic "x")))) "level"
      = some (.str "banana") :=
  ⟨by decide, by decide, by decide⟩

/-- C2 amended: in JSON mode, for every chain in which no link carries a
tag keyed level, the document holds level info exactly when the formatted
top message has no cause, and level error otherwise. -/
theorem c2_level_field (l : Logger) (now : GoTime)
    (caller : Option (String × Nat)) (top : GoErr)
    (h : carries (walkTags top) "level" = false) :
    Tags.get (l.buildJSONDoc now caller top) "level"
      = some (.str (if top.unwrap = none then "info" else "error")) := by
  simp only [Logger.buildJSONDoc]
  rw [setAll_get, carries_false_lastValueOf _ _ h]
  cases hu : top.unwrap with
  | none => simp [tags_get_set_self]
  | some c => simp [tags_get_set_self]

/-- C2 witness: the amended statement evaluated on the spec scenario chain,
which carries only an address tag. -/
theorem c2_level_field_witness :
    carries (walkTags exAddr) "level" = false
    ∧ Tags.get (Logger.buildJSONDoc ⟨"", 16⟩ ⟨"TL", "TU"⟩ none exAddr) "level"
        = some (.str (if exAddr.unwrap = none then "info" else "error")) :=
  ⟨by decide, c2_level_field _ _ _ _ (by decide)⟩

/-- C3: in JSON mode, when some link of the chain carries a key, the final
document holds the value of the last pair in walk order for that key, which
is the value attached at the deepest carrying link; and appending deeper
pairs after outer ones makes the deeper value win, since assignment walks
outer to inner and overwrites in place. -/
theorem c3_inner_tag_wins (l : Logger) (now : GoTime)
    (caller : Option (String × Nat)) (top : GoErr) (k : String)
    (h : carries (walkTags top) k = true) :
    Tags.get (l.buildJSONDoc now caller top) k = lastValueOf (walkTags top) k
    ∧ ∀ outer inner : Tags, carries inner k = true →
        lastValueOf (outer ++ inner) k = lastValueOf inner k :=
  ⟨buildJSONDoc_get_carried l now caller top k h,
   fun outer inner hi => lastValueOf_append outer inner k hi⟩

/-- C3 witness: on a chain where an outer link and a deeper inner link both
carry the key id, the document holds the inner value 2. -/
theorem c3_inner_tag_wins_witness :
    carries (walkTags exCollide) "id" = true
    ∧ Tags.get (Logger.buildJSONDoc ⟨"", 16⟩ ⟨"TL", "TU"⟩ none exCollide) "id"
        = lastValueOf (walkTags exCollide) "id"
    ∧ lastValueOf (walkTags exCollide) "id" = some (.int 2) :=
  ⟨by decide, (c3_inner_tag_wins _ _ _ _ _ (by decide)).1, by decide⟩

/-- C4: in JSON mode, whenever marshalling the document fails, the log call
still returns (the embedding is a total function): nothing is written to
the primary sink, a diagnostic goes to the fallback error channel, and the
call returns just the plain formatted message string. -/
theorem c4_marshal_failure (l : Logger) (now : GoTime)
    (caller : Option (String × Nat)) (top : GoErr)
    (h : marshal (l.buildJSONDoc now caller top) = none) :
    (l.writeJSON now caller top).sink = none
    ∧ (l.writeJSON now caller top).stderrDiag ≠ none
    ∧ (l.writeJSON now caller top).ret = top.message := by
  simp [Logger.writeJSON, h]

/-- C4 witness: the statement evaluated on a chain carrying a value that
encoding/json rejects. -/
theorem c4_marshal_failure_witness :
    marshal (Logger.buildJSONDoc ⟨"", 16⟩ ⟨"TL", "TU"⟩ none exBad) = none
    ∧ (Logger.writeJSON ⟨"", 16⟩ ⟨"TL", "TU"⟩ none exBad).sink = none
    ∧ (Logger.writeJSON ⟨"", 16⟩ ⟨"TL", "TU"⟩ none exBad).stderrDiag ≠ none
    ∧ (Logger.writeJSON ⟨"", 16⟩ ⟨"TL", "TU"⟩ none exBad).ret = GoErr.message exBad :=
  ⟨by decide, (c4_marshal_failure _ _ _ _ (by decide)).1,
   (c4_marshal_failure _ _ _ _ (by decide)).2.1,
   (c4_marshal_failure _ _ _ _ (by decide)).2.2⟩

/-- C5 counterexample: for the error built by fur.New from a root error,
Unwrap does not return that error; it returns none, because the Unwrap
method unwraps the underlying error one step further. -/
theorem c5_cex :
    (fur.New (GoErr.basic "timeout")).unwrap ≠ some (GoErr.basic "timeout") := by
  decide

/-- C5 amended: fur.New(err) stores err as the underlying error, so the
message is the message of err, but Unwrap returns xerrors.Unwrap of the
underlying error: on fur.New(err) it yields the own cause of err (nothing
when err is a root), not err itself; on an error formatted with a wrap verb
it yields the wrapped cause. -/
theorem c5_unwrap_of_new (err : GoErr) :
    (fur.New err).error = err.message
    ∧ (fur.New err).unwrap = err.unwrap
    ∧ ∀ (p : String) (c : GoErr), (fur.New (GoErr.wrapped p c)).unwrap = some c :=
  ⟨rfl, rfl, fun _ _ => rfl⟩

/-- C6 counterexample: two calls with identical configuration and
arguments that are the same Go values (the tag lists are permutations of
one another, modelling two enumeration orders of the same map) can produce
different bytes, because Go leaves map enumeration order unspecified. -/
theorem c6_cex :
    List.Perm [("a", GoValue.int 1), ("b", GoValue.int 2)]
      [("b", GoValue.int 2), ("a", GoValue.int 1)]
    ∧ Logger.write ⟨"", 0⟩ ⟨"TL", "TU"⟩ none
        (.wrapped "m: " (.tagged [("a", .int 1), ("b", .int 2)] (.basic "x")))
      ≠ Logger.write ⟨"", 0⟩ ⟨"TL", "TU"⟩ none
        (.wrapped "m: " (.tagged [("b", .int 2), ("a", .int 1)] (.basic "x"))) :=
  ⟨List.Perm.swap _ _ _, by decide⟩

/-- C6 amended: with the timestamp flag disabled, the output of a log call
does not depend on the current time, so two calls at different times with
identical configuration, identical arguments, and the same per link tag
enumeration order produce byte identical output; when a link holds two or
more tags the enumeration order of that map is unspecified and may differ
between the two calls, changing the bytes. -/
theorem c6_time_independence (l : Logger) (t1 t2 : GoTime)
    (caller : Option (String × Nat)) (top : GoErr)
    (h : l.flags &&& FlagTimestamp = 0) :
    l.write t1 caller top = l.write t2 caller top := by
  unfold Logger.write Logger.writeJSON Logger.buildJSONDoc Logger.writeText
    Logger.textBuffer Logger.textHead
  simp [h]

/-- C6 witness: the amended statement at two distinct times. -/
theorem c6_time_independence_witness :
    (Logger.mk "" 0).flags &&& FlagTimestamp = 0
    ∧ Logger.write ⟨"", 0⟩ ⟨"T1", "U1"⟩ none (.basic "m")
        = Logger.write ⟨"", 0⟩ ⟨"T2", "U2"⟩ none (.basic "m") :=
  ⟨by decide, c6_time_independence ⟨"", 0⟩ ⟨"T1", "U1"⟩ ⟨"T2", "U2"⟩ none (.basic "m") (by decide)⟩

/-- C7 counterexample: when the built buffer already ends with two
newlines, the written string ends with two newlines, not exactly one, since
a newline is only ever appended, never stripped. -/
theorem c7_cex :
    trailingNLCount (Logger.writeText ⟨"", 0⟩ ⟨"TL", "TU"⟩ none (.basic "hi\n\n")) = 2
    ∧ trailingNLCount (Logger.writeText ⟨"", 0⟩ ⟨"TL", "TU"⟩ none (.basic "hi\n\n")) ≠ 1 :=
  ⟨by decide, by decide⟩

/-- C7 amended: in text mode the written and returned string always ends
with at least one newline: a newline is appended exactly when the built
buffer does not already end with one, and the buffer is left unchanged
otherwise (so extra trailing newlines already in the message survive). -/
theorem c7_newline (l : Logger) (now : GoTime)
    (caller : Option (String × Nat)) (top : GoErr) :
    l.writeText now caller top = finalizeNL (l.textBuffer now caller top)
    ∧ hasSuffixNL (l.writeText now caller top) = true
    ∧ (hasSuffixNL (l.textBuffer now caller top) = false →
        l.writeText now caller top = l.textBuffer now caller top ++ "\n")
    ∧ (hasSuffixNL (l.textBuffer now caller top) = true →
        l.writeText now caller top = l.textBuffer now caller top) := by
  refine ⟨rfl, ?_, ?_, ?_⟩
  · show hasSuffixNL (finalizeNL (l.textBuffer now caller top)) = true
    unfold finalizeNL
    cases h : hasSuffixNL (l.textBuffer now caller top) with
    | true => simp [h]
    | false => simp [h, hasSuffixNL_append_nl]
  · intro h
    show finalizeNL (l.textBuffer now caller top) = _
    unfold finalizeNL
    simp [h]
  · intro h
    show finalizeNL (l.textBuffer now caller top) = _
    unfold finalizeNL
    simp [h]

/-- C7 witness: a buffer without a trailing newline gets exactly one
appended. -/
theorem c7_newline_witness :
    hasSuffixNL (Logger.textBuffer ⟨"", 0⟩ ⟨"TL", "TU"⟩ none (.basic "hi")) = false
    ∧ Logger.writeText ⟨"", 0⟩ ⟨"TL", "TU"⟩ none (.basic "hi")
        = Logger.textBuffer ⟨"", 0⟩ ⟨"TL", "TU"⟩ none (.basic "hi") ++ "\n" :=
  ⟨by decide, (c7_newline _ _ _ _).2.2.1 (by decide)⟩

/-- C8: Tag(key, value) returns an error whose tag mapping has key set to
value, every other key of its own mapping unchanged, and the cause field
Err untouched; since every other link of the chain lives inside Err, no
other link and no other tag mapping is modified. -/
theorem c8_tag_frame (e : fur.Error) (key : String) (value : GoValue) :
    (e.tag key value).Err = e.Err
    ∧ Tags.get (e.tag key value).tags key = some value
    ∧ (∀ k2 : String, k2 ≠ key →
        Tags.get (e.tag key value).tags k2 = Tags.get e.tags k2) :=
  ⟨rfl, tags_get_set_self e.tags key value,
   fun k2 h => tags_get_set_ne e.tags key value k2 h⟩

/-- C8 witness: tagging a fresh error with key a leaves its cause and the
absent key b unchanged. -/
theorem c8_tag_frame_witness :
    ((fur.New (GoErr.basic "x")).tag "a" (.int 1)).Err = (fur.New (GoErr.basic "x")).Err
    ∧ Tags.get ((fur.New (GoErr.basic "x")).tag "a" (.int 1)).tags "a" = some (.int 1)
    ∧ ("b" : String) ≠ "a"
    ∧ Tags.get ((fur.New (GoErr.basic "x")).tag "a" (.int 1)).tags "b"
        = Tags.get (fur.New (GoErr.basic "x")).tags "b" :=
  ⟨(c8_tag_frame _ "a" (.int 1)).1, (c8_tag_frame _ "a" (.int 1)).2.1,
   by decide, (c8_tag_frame _ "a" (.int 1)).2.2 "b" (by decide)⟩

/-- C9: in JSON mode, when any link of the chain carries a tag whose key is
one of message, level, timestamp or file, the final document holds the tag
value for that key (the last one in walk order), replacing the built in
field of that name, because tag assignment happens after the built in
fields are set. -/
theorem c9_tag_overrides_builtin (l : Logger) (now : GoTime)
    (caller : Option (String × Nat)) (top : GoErr) (k : String)
    (_hk : k = "message" ∨ k = "level" ∨ k = "timestamp" ∨ k = "file")
    (h : carries (walkTags top) k = true) :
    Tags.get (l.buildJSONDoc now caller top) k = lastValueOf (walkTags top) k :=
  buildJSONDoc_get_carried l now caller top k h

/-- C9 witness: a tag keyed message replaces the built in message field,
whose value would have been the formatted message. -/
theorem c9_tag_overrides_builtin_witness :
    carries (walkTags exMsgTag) "message" = true
    ∧ Tags.get (Logger.buildJSONDoc ⟨"", 16⟩ ⟨"TL", "TU"⟩ none exMsgTag) "message"
        = lastValueOf (walkTags exMsgTag) "message"
    ∧ lastValueOf (walkTags exMsgTag) "message" = some (.str "override")
    ∧ GoErr.message exMsgTag = "m: x" :=
  ⟨by decide,
   c9_tag_overrides_builtin ⟨"", 16⟩ ⟨"TL", "TU"⟩ none exMsgTag "message"
     (Or.inl rfl) (by decide),
   by decide, by decide⟩

/-- C10 counterexample: with the file flag set and caller resolution
succeeding, a chain carrying a tag keyed file makes the document hold the
tag value instead of the location segment text. -/
theorem c10_cex :
    ((20 : Nat) &&& (FlagFile ||| FlagPath) ≠ 0)
    ∧ Tags.get (Logger.buildJSONDoc ⟨"", 20⟩ ⟨"TL", "TU"⟩ (some ("/a/b.go", 7)) exFileTag) "file"
        = some (.str "X")
    ∧ Tags.get (Logger.buildJSONDoc ⟨"", 20⟩ ⟨"TL", "TU"⟩ (some ("/a/b.go", 7)) exFileTag) "file"
        ≠ some (.str (fileSegment 20 "/a/b.go" 7)) :=
  ⟨by decide, by decide, by decide⟩

/-- C10 amended: in JSON mode, whenever a file or path flag is set, caller
resolution succeeds, and no chain link carries a tag keyed file (such a tag
replaces the field, see C9), the file field holds the path or file name,
a colon, the line number, a colon and a space, the same text as the text
mode segment, not the bare location. -/
theorem c10_file_field (l : Logger) (now : GoTime) (f : String) (line : Nat)
    (top : GoErr)
    (hf : l.flags &&& (FlagFile ||| FlagPath) ≠ 0)
    (h : carries (walkTags top) "file" = false) :
    Tags.get (l.buildJSONDoc now (some (f, line)) top) "file"
      = some (.str (fileSegment l.flags f line))
    ∧ fileSegment l.flags f line
      = (if l.flags &&& FlagPath = 0 then pathBase f else f)
          ++ ":" ++ toString line ++ ": " := by
  constructor
  · simp only [Logger.buildJSONDoc]
    rw [setAll_get, carries_false_lastValueOf _ _ h]
    have hne : ("file" : String) ≠ "level" := by decide
    cases hu : top.unwrap with
    | none =>
        rw [Option.elim, tags_get_set_ne _ "level" _ "file" hne, if_pos hf]
        exact tags_get_set_self _ "file" _
    | some c =>
        rw [Option.elim, tags_get_set_ne _ "level" _ "file" hne, if_pos hf]
        exact tags_get_set_self _ "file" _
  · rfl

/-- C10 witness: the amended statement evaluated with the file flag on a
chain without a file tag. -/
theorem c10_file_field_witness :
    (Logger.mk "" 20).flags &&& (FlagFile ||| FlagPath) ≠ 0
    ∧ carries (walkTags (GoErr.basic "m")) "file" = false
    ∧ Tags.get (Logger.buildJSONDoc ⟨"", 20⟩ ⟨"TL", "TU"⟩ (some ("/a/b.go", 7)) (.basic "m")) "file"
        = some (.str (fileSegment (Logger.mk "" 20).flags "/a/b.go" 7)) :=
  ⟨by decide, by decide,
   (c10_file_field ⟨"", 20⟩ ⟨"TL", "TU"⟩ "/a/b.go" 7 (.basic "m") (by decide) (by decide)).1⟩
